import Mathlib

/-!
# Verification of the `exp` CLI orchestration layer

Shallow embedding of the command-line front-end (`src/exp.js`, the publish
command, and `src/commands/login.js`) together with proofs about the
behavior of its action wrappers, progress indicator, update checker,
command registry and entry-point dispatch.

External collaborators (`xdl`, `commander`, node's `path`) are modelled as
explicitly-passed outcomes or, where noted, from the specification's
description of the collaborator contract.
-/

namespace Exp

/-! ## Progress indicator (`asyncActionProjectDir`'s packager-log sink)

The `progress` npm package's bar: `tick(n)` adds `n` to `curr` and marks the
bar complete once `curr` reaches `total`.  The sink in `exp.js` creates a bar
with `total = 100` on `onStartBuildBundle`, advances it by
`percent - bar.curr` ticks (only when positive) on `onProgressBuildBundle`,
and on `onFinishBuildBundle` ticks `100 - bar.curr` if not complete and then
tears the bar down (`bar = null`). -/

structure ProgressBar where
  curr : Int
  total : Int
  complete : Bool
deriving Repr, DecidableEq

/-- `ProgressBar#tick(n)`: advance by `n`; the bar becomes complete once
`curr` reaches `total`. -/
def ProgressBar.tick (b : ProgressBar) (n : Int) : ProgressBar :=
  let c := b.curr + n
  { b with curr := c, complete := b.complete || decide (b.total ≤ c) }

/-- The bar created by `onStartBuildBundle`:
`new ProgressBar(..., { total: 100 })` starts at `curr = 0`, not complete. -/
def freshBar : ProgressBar := { curr := 0, total := 100, complete := false }

/-- State right after a `build started` notification. -/
def onStartBuildBundle : Option ProgressBar := some freshBar

/-- `onProgressBuildBundle`: `if (!bar || bar.complete) return;
let ticks = percent - bar.curr; ticks > 0 && bar.tick(ticks);`. -/
def onProgressBuildBundle (bar : Option ProgressBar) (percent : Int) :
    Option ProgressBar :=
  match bar with
  | none => none
  | some b =>
    if b.complete then some b
    else
      let ticks := percent - b.curr
      if 0 < ticks then some (b.tick ticks) else some b

/-- `onFinishBuildBundle`: `if (bar && !bar.complete) bar.tick(100 - bar.curr);
if (bar) { ... bar = null; ... }`.  Returns the bar as observed right before
teardown, paired with the state after teardown. -/
def onFinishBuildBundle (bar : Option ProgressBar) :
    Option ProgressBar × Option ProgressBar :=
  match bar with
  | none => (none, none)
  | some b =>
    let b' := if b.complete then b else b.tick (100 - b.curr)
    (some b', none)

/-- Current position of the (optional) bar; `0` when no bar is live. -/
def barCurr : Option ProgressBar → Int
  | none => 0
  | some b => b.curr

/-- Feed a sequence of `build progress` percentages to the sink, starting
right after a `build started` notification. -/
def runProgress (ps : List Int) : Option ProgressBar :=
  ps.foldl onProgressBuildBundle onStartBuildBundle

/-- A single progress notification never decreases the bar position. -/
theorem barCurr_onProgress_le (s : Option ProgressBar) (p : Int) :
    barCurr s ≤ barCurr (onProgressBuildBundle s p) := by
  cases s with
  | none => simp [onProgressBuildBundle]
  | some b =>
    simp only [onProgressBuildBundle]
    by_cases hc : b.complete = true
    · rw [if_pos hc]
    · rw [if_neg hc]
      by_cases ht : (0 : Int) < p - b.curr
      · rw [if_pos ht]
        simp only [barCurr, ProgressBar.tick]
        omega
      · rw [if_neg ht]

/-- Invariant-carrying run lemma: from a live, incomplete bar whose position
is below `100`, a strictly increasing sequence of percentages bounded by
`100` whose first element is at least the current position drives the bar to
the last percentage. -/
theorem foldl_onProgress (ps : List Int) :
    ∀ b : ProgressBar, b.complete = false → b.total = 100 → b.curr < 100 →
    (∀ q ∈ ps, q ≤ 100) → List.Chain' (· < ·) ps →
    (∀ h, ps.head? = some h → b.curr ≤ h) →
    ∃ b', ps.foldl onProgressBuildBundle (some b) = some b' ∧
      b'.curr = ps.getLastD b.curr ∧ b'.total = 100 ∧ b'.curr ≤ 100 ∧
      b'.complete = decide (b'.curr = 100) := by
  induction ps with
  | nil =>
    intro b hbc hbt hblt _ _ _
    refine ⟨b, rfl, rfl, hbt, le_of_lt hblt, ?_⟩
    have : ¬ b.curr = 100 := by omega
    simp [hbc, this]
  | cons p rest ih =>
    intro b hbc hbt hblt hle hch hhd
    have hple : p ≤ 100 := hle p (List.mem_cons_self p rest)
    have hbp : b.curr ≤ p := hhd p rfl
    have hchr : List.Chain' (· < ·) rest := (List.chain'_cons'.mp hch).2
    have hhdr : ∀ h, rest.head? = some h → p < h :=
      (List.chain'_cons'.mp hch).1
    by_cases hadv : 0 < p - b.curr
    · -- the bar advances to exactly `p`
      have hstep : onProgressBuildBundle (some b) p =
          some (b.tick (p - b.curr)) := by
        simp [onProgressBuildBundle, hbc, hadv]
      have htick : (b.tick (p - b.curr)).curr = p := by
        simp [ProgressBar.tick]
      by_cases hp100 : p = 100
      · -- a percentage of 100 completes the bar; strict increase plus the
        -- bound forces the rest of the sequence to be empty
        have hrest : rest = [] := by
          cases rest with
          | nil => rfl
          | cons q qs =>
            have hq : p < q := hhdr q rfl
            have : q ≤ 100 := hle q (by simp)
            omega
        subst hrest
        refine ⟨b.tick (p - b.curr), ?_, ?_, ?_, ?_, ?_⟩
        · simp [List.foldl, hstep]
        · rw [htick]; rfl
        · simp [ProgressBar.tick, hbt]
        · rw [htick]; omega
        · subst hp100
          have hsum : b.curr + ((100 : Int) - b.curr) = 100 := by ring
          simp [ProgressBar.tick, hbc, hbt, hsum]
      · -- the bar is still incomplete; recurse
        have hlt100 : p < 100 := lt_of_le_of_ne hple hp100
        have hcomp : (b.tick (p - b.curr)).complete = false := by
          simp [ProgressBar.tick, hbc, hbt]
          omega
        have htot : (b.tick (p - b.curr)).total = 100 := by
          simp [ProgressBar.tick, hbt]
        obtain ⟨b', hrun, hcurr, h1, h2, h3⟩ :=
          ih (b.tick (p - b.curr)) hcomp htot (by rw [htick]; exact hlt100)
            (fun q hq => hle q (List.mem_cons_of_mem _ hq)) hchr
            (fun h hh => by rw [htick]; exact le_of_lt (hhdr h hh))
        refine ⟨b', ?_, ?_, h1, h2, h3⟩
        · simpa [List.foldl_cons, hstep] using hrun
        · rw [hcurr, List.getLastD_cons, htick]
    · -- `ticks ≤ 0`: the notification is a no-op, so `p = b.curr`
      have hpeq : p = b.curr := by omega
      have hstep : onProgressBuildBundle (some b) p = some b := by
        simp [onProgressBuildBundle, hbc, hadv]
      obtain ⟨b', hrun, hcurr, h1, h2, h3⟩ :=
        ih b hbc hbt hblt
          (fun q hq => hle q (List.mem_cons_of_mem _ hq)) hchr
          (fun h hh => le_of_lt (hpeq ▸ hhdr h hh))
      refine ⟨b', ?_, ?_, h1, h2, h3⟩
      · simpa [List.foldl_cons, hstep] using hrun
      · rw [hcurr, List.getLastD_cons, hpeq]

/-- C1: for a build session, any strictly increasing sequence of progress
percentages `p :: rest` (all `≤ 100`, starting at or above `0`) fed to the
sink after a `build started` notification advances the bar by a
non-negative amount at every step, the total advancement over the session
equals the last percentage minus the initial position `0`, and a subsequent
`build finished` notification forces the bar to exactly `100` and then
tears it down. -/
theorem progress_session_correct (p : Int) (rest : List Int) (i : Nat)
    (hch : List.Chain' (· < ·) (p :: rest))
    (hle : ∀ q ∈ p :: rest, q ≤ 100)
    (hp : 0 ≤ p) :
    barCurr (runProgress ((p :: rest).take i)) ≤
      barCurr (runProgress ((p :: rest).take (i + 1))) ∧
    barCurr (runProgress (p :: rest)) - barCurr onStartBuildBundle =
      (p :: rest).getLastD 0 - 0 ∧
    barCurr (onFinishBuildBundle (runProgress (p :: rest))).1 = 100 ∧
    (onFinishBuildBundle (runProgress (p :: rest))).2 = none := by
  obtain ⟨b', hrun, hcurr, htot, hle100, hcompl⟩ :=
    foldl_onProgress (p :: rest) freshBar rfl rfl (by norm_num [freshBar])
      hle hch
      (fun h hh => by
        rw [List.head?_cons] at hh
        injection hh with h1
        rw [← h1]; exact hp)
  have hrun' : runProgress (p :: rest) = some b' := hrun
  have hcurr0 : freshBar.curr = 0 := rfl
  refine ⟨?_, ?_, ?_, ?_⟩
  · rw [runProgress, runProgress, List.take_succ, List.foldl_append]
    cases hq : (p :: rest)[i]? with
    | none => simp
    | some q =>
      simpa using barCurr_onProgress_le
        (((p :: rest).take i).foldl onProgressBuildBundle onStartBuildBundle) q
  · rw [hrun']
    simpa [barCurr, onStartBuildBundle, freshBar] using hcurr
  · rw [hrun']
    by_cases hc : b'.complete = true
    · have h100 : b'.curr = 100 := by
        rw [hcompl] at hc
        exact of_decide_eq_true hc
      simp [onFinishBuildBundle, hc, barCurr, h100]
    · simp only [onFinishBuildBundle]
      rw [if_neg hc]
      simp only [barCurr, ProgressBar.tick]
      omega
  · rw [hrun']
    simp [onFinishBuildBundle]

/-- Concrete instantiation of `progress_session_correct` at the session
`[30, 70]`, step index `1`. -/
theorem progress_session_correct_witness :
    barCurr (runProgress (([30, 70] : List Int).take 1)) ≤
      barCurr (runProgress (([30, 70] : List Int).take 2)) ∧
    barCurr (runProgress ([30, 70] : List Int)) - barCurr onStartBuildBundle =
      ([30, 70] : List Int).getLastD 0 - 0 ∧
    barCurr (onFinishBuildBundle (runProgress ([30, 70] : List Int))).1 = 100 ∧
    (onFinishBuildBundle (runProgress ([30, 70] : List Int))).2 = none :=
  progress_session_correct 30 [70] 1
    (by norm_num [List.chain'_cons, List.chain'_singleton]) (by decide)
    (by decide)

/-! ## `asyncAction`: the uniform error boundary

`Command.prototype.asyncAction(asyncFn, skipUpdateCheck)` runs an optional
best-effort update check, applies the `raw`-output and `offline` options,
runs the handler, flushes analytics on success, and maps a thrown error to
formatted output plus `process.exit(1)`.  Collaborator effects (the update
check, the handler, `Analytics.flush`) are passed in as explicit outcomes. -/

/-- Terminal text styles used by the wrapper (`crayon`). -/
inductive Style
  | plain
  | red
  | green
  | grey
deriving Repr, DecidableEq

/-- One printed line: either a formatted message or a stack trace
(`crayon.gray.error(err.stack)`). -/
inductive OutLine
  | msg (style : Style) (text : String)
  | stackDump (text : String)
deriving Repr, DecidableEq

def OutLine.isStackDump : OutLine → Bool
  | .stackDump _ => true
  | _ => false

/-- A thrown error as discriminated by the wrapper's duck-typed marker
fields `_isCommandError`, `_isApiError`, `isXDLError`. -/
structure CliError where
  isCommandError : Bool
  isApiError : Bool
  isXDLError : Bool
  message : String
  stack : String
deriving Repr, DecidableEq

/-- The `catch` block of `asyncAction`: classify the error and render its
message; uncategorized errors additionally print the stack trace when
`EXPO_DEBUG` is set, or a hint otherwise. -/
def renderError (dbg : Bool) (e : CliError) : List OutLine :=
  if e.isCommandError then [.msg .plain e.message]
  else if e.isApiError then [.msg .red e.message]
  else if e.isXDLError then [.msg .plain e.message]
  else
    .msg .plain e.message ::
      (if dbg then [.stackDump e.stack]
       else
         [.msg .grey "Set EXPO_DEBUG=true in your env to view the stack trace."])

/-- Outcome of `checkForUpdateAsync` as seen by `asyncAction`: it either
returns (having printed some lines) or throws. -/
inductive UpdateCheckOutcome
  | ok (printed : List OutLine)
  | thrown
deriving Repr

/-- Outcome of the wrapped handler `asyncFn`. -/
inductive HandlerOutcome
  | ok
  | thrown (e : CliError)
deriving Repr

/-- Outcome of `Analytics.flush()`. -/
inductive FlushOutcome
  | ok
  | thrown (e : CliError)
deriving Repr

/-- The slice of the parsed commander options read by `asyncAction`. -/
structure ParsedOptions where
  output : Option String
  offline : Bool
deriving Repr, DecidableEq

/-- Observable result of one invocation of the action returned by
`asyncAction`. -/
structure ActionResult where
  updatePrinted : List OutLine
  errorPrinted : List OutLine
  flushAttempted : Bool
  exit : Option Nat
  logRaw : Bool
  configOffline : Bool
deriving Repr, DecidableEq

/-- `Command.prototype.asyncAction`: the update check runs unless skipped and
its failure is swallowed by `try {} catch (e) {}`; the handler and
`Analytics.flush()` run inside the second `try`, whose `catch` renders the
error and calls `process.exit(1)`. -/
def asyncAction (skipUpdateCheck : Bool) (u : UpdateCheckOutcome)
    (opts : ParsedOptions) (h : HandlerOutcome) (f : FlushOutcome)
    (dbg : Bool) : ActionResult :=
  let updatePrinted :=
    if skipUpdateCheck then []
    else match u with
      | .ok ls => ls
      | .thrown => []
  let logRaw := opts.output == some "raw"
  let configOffline := opts.offline
  match h with
  | .thrown e =>
    { updatePrinted := updatePrinted, errorPrinted := renderError dbg e,
      flushAttempted := false, exit := some 1, logRaw := logRaw,
      configOffline := configOffline }
  | .ok =>
    match f with
    | .ok =>
      { updatePrinted := updatePrinted, errorPrinted := [],
        flushAttempted := true, exit := none, logRaw := logRaw,
        configOffline := configOffline }
    | .thrown e =>
      { updatePrinted := updatePrinted, errorPrinted := renderError dbg e,
        flushAttempted := true, exit := some 1, logRaw := logRaw,
        configOffline := configOffline }

/-- C2: a handler failure carrying exactly one of the three tags makes the
wrapper print exactly one formatted line (plain for command and library
errors, red for remote-API errors), never a stack trace whatever the debug
flag, and exit with code 1. -/
theorem tagged_error_one_line_exit_one (e : CliError) (skip : Bool)
    (u : UpdateCheckOutcome) (opts : ParsedOptions) (f : FlushOutcome)
    (dbg : Bool)
    (htag :
      (e.isCommandError = true ∧ e.isApiError = false ∧ e.isXDLError = false) ∨
      (e.isCommandError = false ∧ e.isApiError = true ∧ e.isXDLError = false) ∨
      (e.isCommandError = false ∧ e.isApiError = false ∧ e.isXDLError = true)) :
    (asyncAction skip u opts (.thrown e) f dbg).errorPrinted =
      [.msg (if e.isApiError then .red else .plain) e.message] ∧
    (∀ l ∈ (asyncAction skip u opts (.thrown e) f dbg).errorPrinted,
      l.isStackDump = false) ∧
    (asyncAction skip u opts (.thrown e) f dbg).exit = some 1 := by
  rcases htag with ⟨h1, h2, h3⟩ | ⟨h1, h2, h3⟩ | ⟨h1, h2, h3⟩ <;>
    simp [asyncAction, renderError, h1, h2, h3, OutLine.isStackDump]

/-- Concrete instantiation of `tagged_error_one_line_exit_one` at a
remote-API error with the debug flag set. -/
theorem tagged_error_one_line_exit_one_witness :
    (asyncAction false (.ok []) ⟨none, false⟩
        (.thrown ⟨false, true, false, "api broke", "trace-text"⟩) .ok
        true).errorPrinted = [.msg .red "api broke"] ∧
    (asyncAction false (.ok []) ⟨none, false⟩
        (.thrown ⟨false, true, false, "api broke", "trace-text"⟩) .ok
        true).exit = some 1 :=
  ⟨(tagged_error_one_line_exit_one ⟨false, true, false, "api broke", "trace-text"⟩
      false (.ok []) ⟨none, false⟩ .ok true
      (Or.inr (Or.inl ⟨rfl, rfl, rfl⟩))).1,
   (tagged_error_one_line_exit_one ⟨false, true, false, "api broke", "trace-text"⟩
      false (.ok []) ⟨none, false⟩ .ok true
      (Or.inr (Or.inl ⟨rfl, rfl, rfl⟩))).2.2⟩

/-- C5 counterexample: with a successful handler, a thrown
`Analytics.flush()` is caught by the wrapper's generic `catch`: it produces
the error path's output and exit code 1, so flush failures are not
swallowed. -/
theorem flush_failure_exits_one_cex :
    (asyncAction false (.ok []) ⟨none, false⟩ .ok
        (.thrown ⟨false, false, false, "flush failed", "st"⟩) false).exit =
      some 1 ∧
    (asyncAction false (.ok []) ⟨none, false⟩ .ok
        (.thrown ⟨false, false, false, "flush failed", "st"⟩)
        false).errorPrinted ≠ [] := by
  constructor
  · rfl
  · simp [asyncAction, renderError]

/-- C5 (amended): a failure of the update check is swallowed — it changes
neither the error output, the exit code, nor whether the flush runs, and
prints nothing; a failure of `Analytics.flush()` after a successful handler
is instead caught by the generic error boundary, which renders the error
and exits with code 1. -/
theorem update_failure_swallowed_flush_failure_caught (skip : Bool)
    (u : UpdateCheckOutcome) (opts : ParsedOptions) (h : HandlerOutcome)
    (f : FlushOutcome) (dbg : Bool) (e : CliError) :
    (asyncAction skip .thrown opts h f dbg).errorPrinted =
      (asyncAction skip (.ok []) opts h f dbg).errorPrinted ∧
    (asyncAction skip .thrown opts h f dbg).exit =
      (asyncAction skip (.ok []) opts h f dbg).exit ∧
    (asyncAction skip .thrown opts h f dbg).flushAttempted =
      (asyncAction skip (.ok []) opts h f dbg).flushAttempted ∧
    (asyncAction skip .thrown opts h f dbg).updatePrinted = [] ∧
    (asyncAction skip u opts .ok (.thrown e) dbg).exit = some 1 ∧
    (asyncAction skip u opts .ok (.thrown e) dbg).errorPrinted =
      renderError dbg e := by
  cases h <;> cases f <;> cases skip <;> simp [asyncAction]

/-! ## `asyncActionProjectDir`: the project-directory wrapper

The inner action built by `Command.prototype.asyncActionProjectDir`:
update check (swallowed), conditional `loginOrRegisterIfLoggedOut`,
conditional `UserManager.ensureLoggedInAsync`, resolution of `projectDir`
from `process.cwd()`, attachment of the packager-log sink and of the
`device`-tagged logger stream, conditional project validation via
`Project.currentStatus` and `Doctor.validateLowLatencyAsync`, and finally
delegation to the handler with the resolved directory prepended.  The
embedding records the sequence of these steps as a trace and the final
result (the directory handed to the handler, or the thrown error). -/

/-- Steps of the inner action of `asyncActionProjectDir`, in the order the
embedding appends them. -/
inductive PdEvent
  | updateCheck
  | loginOrRegister
  | ensureLoggedIn
  | resolveDir
  | attachPackagerLogs
  | attachLoggerStream
  | queryStatus
  | validateProject
  | runHandler
deriving Repr, DecidableEq

/-- The slice of the parsed options read by `asyncActionProjectDir`. -/
structure PdOpts where
  nonInteractive : Bool
  offline : Bool
deriving Repr, DecidableEq

/-- Modelled from the spec: node's `path.resolve(cwd, dir)` (the `path`
module is an external collaborator) — an absolute argument is returned
as-is, a relative one is resolved against the working directory. -/
def pathResolve (cwd d : String) : String :=
  if d.startsWith "/" then d else cwd ++ "/" ++ d

/-- `if (!projectDir) projectDir = process.cwd(); else
projectDir = path.resolve(process.cwd(), projectDir);` -/
def resolveProjectDir (cwd : String) (arg : Option String) : String :=
  match arg with
  | none => cwd
  | some d => pathResolve cwd d

/-- The inner action of `asyncActionProjectDir(asyncFn,
skipProjectValidation, skipAuthCheck)`.  Collaborator outcomes are passed
explicitly: `loginOk` for `loginOrRegisterIfLoggedOut`, `ensureOk` for
`UserManager.ensureLoggedInAsync`, `status` for
`Project.currentStatus(projectDir)` and `doctorFatal` for
`Doctor.validateLowLatencyAsync(projectDir) === Doctor.FATAL`. -/
def asyncActionProjectDir (skipProjectValidation skipAuthCheck : Bool)
    (cwd : String) (dirArg : Option String) (opts : PdOpts)
    (loginOk ensureOk : Bool) (status : String) (doctorFatal : Bool) :
    List PdEvent × Except String String :=
  let tr0 := [PdEvent.updateCheck]
  let needLogin := !skipAuthCheck && !opts.nonInteractive && !opts.offline
  let tr1 := tr0 ++ (if needLogin then [PdEvent.loginOrRegister] else [])
  if needLogin && !loginOk then (tr1, .error "login failed")
  else
    let tr2 := tr1 ++ (if !skipAuthCheck then [PdEvent.ensureLoggedIn] else [])
    if !skipAuthCheck && !ensureOk then (tr2, .error "not logged in")
    else
      let dir := resolveProjectDir cwd dirArg
      let tr3 := tr2 ++ [PdEvent.resolveDir, PdEvent.attachPackagerLogs,
        PdEvent.attachLoggerStream]
      if !skipProjectValidation then
        let tr4 := tr3 ++ [PdEvent.queryStatus]
        if status ≠ "running" then
          let tr5 := tr4 ++ [PdEvent.validateProject]
          if doctorFatal then
            (tr5, .error
              "There is an error with your project. See above logs for information.")
          else (tr5 ++ [PdEvent.runHandler], .ok dir)
        else (tr4 ++ [PdEvent.runHandler], .ok dir)
      else (tr3 ++ [PdEvent.runHandler], .ok dir)

/-- `isSubseqOf l m` decides whether `l` is a (not necessarily contiguous)
subsequence of `m`, i.e. whether the steps of `l` occur in the order `m`
lists them. -/
def isSubseqOf : List PdEvent → List PdEvent → Bool
  | [], _ => true
  | _ :: _, [] => false
  | a :: l, b :: m => if a = b then isSubseqOf l m else isSubseqOf (a :: l) m

/-- The full ordering of the steps of `asyncActionProjectDir` as the code
performs them: update check, login-or-register, session assertion,
directory resolution, log-stream attachment, status query, validation,
handler. -/
def pdCodeOrder : List PdEvent :=
  [.updateCheck, .loginOrRegister, .ensureLoggedIn, .resolveDir,
   .attachPackagerLogs, .attachLoggerStream, .queryStatus, .validateProject,
   .runHandler]

/-- C3 counterexample: on a concrete invocation (nothing skipped, no flags,
all collaborators succeeding), both the login-or-register flow and the
session assertion occur strictly before working-directory resolution in the
trace — the claimed order (resolution first, then the login flow) is false. -/
theorem pd_resolve_not_first_cex :
    PdEvent.loginOrRegister ∈
      (asyncActionProjectDir false false "/cwd" none ⟨false, false⟩ true true
        "running" false).1 ∧
    PdEvent.resolveDir ∈
      (asyncActionProjectDir false false "/cwd" none ⟨false, false⟩ true true
        "running" false).1 ∧
    (asyncActionProjectDir false false "/cwd" none ⟨false, false⟩ true true
        "running" false).1.indexOf PdEvent.loginOrRegister <
      (asyncActionProjectDir false false "/cwd" none ⟨false, false⟩ true true
        "running" false).1.indexOf PdEvent.resolveDir ∧
    (asyncActionProjectDir false false "/cwd" none ⟨false, false⟩ true true
        "running" false).1.indexOf PdEvent.ensureLoggedIn <
      (asyncActionProjectDir false false "/cwd" none ⟨false, false⟩ true true
        "running" false).1.indexOf PdEvent.resolveDir := by
  decide

/-- C3 (amended): within a single invocation the steps execute strictly in
the order the code lists them — login-or-register flow and session
assertion first, then working-directory resolution, then log-stream
attachment, then project validation, then delegation to the handler with
the resolved directory; every trace is a subsequence of that order, and
when the handler is reached it receives exactly the resolved directory. -/
theorem pd_steps_in_code_order (spv sac : Bool) (cwd : String)
    (dirArg : Option String) (opts : PdOpts) (loginOk ensureOk : Bool)
    (status : String) (doctorFatal : Bool) :
    isSubseqOf
      (asyncActionProjectDir spv sac cwd dirArg opts loginOk ensureOk status
        doctorFatal).1 pdCodeOrder = true ∧
    (PdEvent.runHandler ∈
        (asyncActionProjectDir spv sac cwd dirArg opts loginOk ensureOk status
          doctorFatal).1 →
      (asyncActionProjectDir spv sac cwd dirArg opts loginOk ensureOk status
        doctorFatal).2 = .ok (resolveProjectDir cwd dirArg)) := by
  rcases opts with ⟨ni, off⟩
  by_cases hst : status = "running" <;>
    cases spv <;> cases sac <;> cases ni <;> cases off <;> cases loginOk <;>
      cases ensureOk <;> cases doctorFatal <;>
        simp [asyncActionProjectDir, pdCodeOrder, isSubseqOf, hst]

/-- Concrete instantiation of `pd_steps_in_code_order`: nothing skipped,
no flags, all collaborators succeeding, packager not yet running. -/
theorem pd_steps_in_code_order_witness :
    isSubseqOf
      (asyncActionProjectDir false false "/home/u" (some "app") ⟨false, false⟩
        true true "stopped" false).1 pdCodeOrder = true ∧
    (asyncActionProjectDir false false "/home/u" (some "app") ⟨false, false⟩
        true true "stopped" false).2 =
      .ok (resolveProjectDir "/home/u" (some "app")) :=
  ⟨(pd_steps_in_code_order false false "/home/u" (some "app") ⟨false, false⟩
      true true "stopped" false).1,
   (pd_steps_in_code_order false false "/home/u" (some "app") ⟨false, false⟩
      true true "stopped" false).2 (by decide)⟩

/-- C6: assuming the interactive flow does not itself throw, the
login-or-register flow runs iff authentication is not skipped and neither
the non-interactive nor the offline flag is set; the session assertion runs
iff authentication is not skipped — in particular also in offline and
non-interactive modes — and its failure aborts the invocation before the
handler with a thrown error. -/
theorem pd_auth_gating (spv sac : Bool) (cwd : String)
    (dirArg : Option String) (opts : PdOpts) (loginOk ensureOk : Bool)
    (status : String) (doctorFatal : Bool) (hlogin : loginOk = true) :
    (PdEvent.loginOrRegister ∈
        (asyncActionProjectDir spv sac cwd dirArg opts loginOk ensureOk status
          doctorFatal).1 ↔
      sac = false ∧ opts.nonInteractive = false ∧ opts.offline = false) ∧
    (PdEvent.ensureLoggedIn ∈
        (asyncActionProjectDir spv sac cwd dirArg opts loginOk ensureOk status
          doctorFatal).1 ↔
      sac = false) ∧
    (sac = false → ensureOk = false →
      (asyncActionProjectDir spv sac cwd dirArg opts loginOk ensureOk status
          doctorFatal).2 = .error "not logged in" ∧
      PdEvent.runHandler ∉
        (asyncActionProjectDir spv sac cwd dirArg opts loginOk ensureOk status
          doctorFatal).1) := by
  subst hlogin
  rcases opts with ⟨ni, off⟩
  by_cases hst : status = "running" <;>
    cases spv <;> cases sac <;> cases ni <;> cases off <;> cases ensureOk <;>
      cases doctorFatal <;>
        simp [asyncActionProjectDir, hst]

/-- Concrete instantiation of `pd_auth_gating`: non-interactive mode with a
failing session assertion — the login flow is skipped, the assertion still
runs and its failure aborts the command. -/
theorem pd_auth_gating_witness :
    PdEvent.ensureLoggedIn ∈
      (asyncActionProjectDir false false "/c" none ⟨true, false⟩ true false
        "running" false).1 ∧
    (PdEvent.loginOrRegister ∉
      (asyncActionProjectDir false false "/c" none ⟨true, false⟩ true false
        "running" false).1) ∧
    (asyncActionProjectDir false false "/c" none ⟨true, false⟩ true false
        "running" false).2 = .error "not logged in" ∧
    PdEvent.runHandler ∉
      (asyncActionProjectDir false false "/c" none ⟨true, false⟩ true false
        "running" false).1 :=
  have h := pd_auth_gating false false "/c" none ⟨true, false⟩ true false
    "running" false rfl
  ⟨h.2.1.mpr rfl,
   fun hmem => by simpa using h.1.mp hmem,
   (h.2.2 rfl rfl).1,
   (h.2.2 rfl rfl).2⟩

/-! ## `checkForUpdateAsync`: the update checker

`update.checkForExpUpdateAsync()` returns `{ state, current, latest }`;
the checker switches on `state` and prints at most one advisory. -/

/-- Output channels of the update checker: `crayon.green.error(message)`
for the upgrade advisory, `log.error(...)` for the confused-state warning. -/
inductive UpdateNotice
  | greenErr (text : String)
  | logErr (text : String)
deriving Repr, DecidableEq

/-- The template literal built in the `out-of-date` branch. -/
def upgradeAdvisory (current latest : String) : String :=
  "There is a new version of exp available (" ++ latest ++
    (").\nYou are currently using exp " ++ current ++
      "\nRun `npm install -g exp` to get the latest version")

/-- `checkForUpdateAsync` as a function of the version-check collaborator's
`{ state, current, latest }` result. -/
def checkForUpdateAsync (state current latest : String) : List UpdateNotice :=
  if state = "up-to-date" then []
  else if state = "out-of-date" then [.greenErr (upgradeAdvisory current latest)]
  else if state = "ahead-of-published" then []
  else [.logErr "Confused about what version of exp you have?"]

/-- C4: the update checker's state mapping is total and deterministic:
`up-to-date` and `ahead-of-published` print nothing, `out-of-date` prints
one advisory containing both the current and the latest version, and every
other state prints the generic confused-state warning; being a total Lean
function of the collaborator's fields, it never throws. -/
theorem update_state_mapping (state current latest : String) :
    (state = "up-to-date" → checkForUpdateAsync state current latest = []) ∧
    (state = "out-of-date" →
      checkForUpdateAsync state current latest =
        [.greenErr (upgradeAdvisory current latest)] ∧
      (∃ a b, upgradeAdvisory current latest = a ++ current ++ b) ∧
      (∃ a b, upgradeAdvisory current latest = a ++ latest ++ b)) ∧
    (state = "ahead-of-published" →
      checkForUpdateAsync state current latest = []) ∧
    (state ≠ "up-to-date" → state ≠ "out-of-date" →
      state ≠ "ahead-of-published" →
      checkForUpdateAsync state current latest =
        [.logErr "Confused about what version of exp you have?"]) := by
  refine ⟨fun h => by simp [checkForUpdateAsync, h], fun h => ?_,
    fun h => by simp [checkForUpdateAsync, h], fun h1 h2 h3 => by
      simp [checkForUpdateAsync, h1, h2, h3]⟩
  refine ⟨by simp [checkForUpdateAsync, h], ?_, ?_⟩
  · exact ⟨"There is a new version of exp available (" ++ latest ++
      ").\nYou are currently using exp ",
      "\nRun `npm install -g exp` to get the latest version", by
        simp only [upgradeAdvisory, String.append_assoc]⟩
  · exact ⟨"There is a new version of exp available (",
      ").\nYou are currently using exp " ++ current ++
        "\nRun `npm install -g exp` to get the latest version", by
        simp only [upgradeAdvisory, String.append_assoc]⟩

/-- Concrete instantiation of `update_state_mapping` at the `out-of-date`
and an unrecognized state. -/
theorem update_state_mapping_witness :
    checkForUpdateAsync "out-of-date" "1.0.0" "2.0.0" =
      [.greenErr (upgradeAdvisory "1.0.0" "2.0.0")] ∧
    checkForUpdateAsync "up-to-date" "1.0.0" "2.0.0" = [] ∧
    checkForUpdateAsync "weird" "1.0.0" "2.0.0" =
      [.logErr "Confused about what version of exp you have?"] :=
  ⟨((update_state_mapping "out-of-date" "1.0.0" "2.0.0").2.1 rfl).1,
   (update_state_mapping "up-to-date" "1.0.0" "2.0.0").1 rfl,
   (update_state_mapping "weird" "1.0.0" "2.0.0").2.2.2 (by decide)
     (by decide) (by decide)⟩

/-! ## Command registration (`runAsync`'s module loop)

Each file found in `./commands` must export a function, either directly or
under `default`; anything else is reported and skipped. -/

/-- Shape of a loaded command module as discriminated by the loop. -/
inductive ModuleShape
  | fn
  | defaultFn
  | malformed
deriving Repr, DecidableEq

def ModuleShape.wellFormed : ModuleShape → Bool
  | .malformed => false
  | _ => true

/-- ``log.error(`'${file}.js' is not a properly formatted command.`)`` —
the source appends `.js` to the glob result, which already ends in `.js`. -/
def moduleError (file : String) : String :=
  "'" ++ file ++ ".js' is not a properly formatted command."

/-- Commands registered so far and errors logged so far. -/
structure RegistryState where
  registered : List String
  errors : List String
deriving Repr, DecidableEq

/-- One iteration of the loop: call the module (or its default export) with
the commander program, or log an error and continue. -/
def registerModule (st : RegistryState) : String × ModuleShape → RegistryState
  | (file, .fn) => { st with registered := st.registered ++ [file] }
  | (file, .defaultFn) => { st with registered := st.registered ++ [file] }
  | (file, .malformed) => { st with errors := st.errors ++ [moduleError file] }

/-- The whole `glob.sync('commands/*.js').forEach(...)` loop. -/
def registerAll (mods : List (String × ModuleShape)) : RegistryState :=
  mods.foldl registerModule ⟨[], []⟩

theorem registerModule_foldl (mods : List (String × ModuleShape)) :
    ∀ st : RegistryState,
      (mods.foldl registerModule st).registered =
        st.registered ++
          ((mods.filter fun m => m.2.wellFormed).map Prod.fst) ∧
      (mods.foldl registerModule st).errors =
        st.errors ++
          ((mods.filter fun m => !m.2.wellFormed).map
            fun m => moduleError m.1) := by
  induction mods with
  | nil => intro st; simp
  | cons m rest ih =>
    intro st
    rcases m with ⟨file, shape⟩
    cases shape <;>
      simp [registerModule, ModuleShape.wellFormed, ih, List.append_assoc]

/-- C7: over any directory of command modules, every malformed module
contributes exactly its logged error and every well-formed module is
registered — malformed modules never prevent later registrations, and the
loop never aborts. -/
theorem malformed_modules_skipped (mods : List (String × ModuleShape)) :
    (registerAll mods).registered =
      ((mods.filter fun m => m.2.wellFormed).map Prod.fst) ∧
    (registerAll mods).errors =
      ((mods.filter fun m => !m.2.wellFormed).map fun m => moduleError m.1) := by
  have h := registerModule_foldl mods ⟨[], []⟩
  simpa [registerAll] using h

/-! ## Entry-point dispatch (`runAsync` after `program.parse`)

After `program.parse(process.argv)`, `runAsync` collects every registered
command's `_name` and `_alias` and prints a hint when `process.argv[2]`
matches none of them, or calls `program.help()` when there is no
sub-command at all. -/

/-- A registered command as seen by the dispatch check. -/
structure CommandDesc where
  cmdName : String
  aliasName : Option String
deriving Repr, DecidableEq

/-- `program.commands.forEach(...)`: push each command's `_name`, then its
`_alias` when present. -/
def commandNames (cmds : List CommandDesc) : List String :=
  cmds.foldl (fun acc c => acc ++ (c.cmdName :: c.aliasName.toList)) []

/-- Observable effects of the dispatch phase. -/
inductive DispatchOut
  | runHandler (name : String)
  | printMsg (text : String)
  | showHelp
deriving Repr, DecidableEq

/-- Modelled from the spec: `commander`'s `program.parse` (an external
collaborator) routes to the matched sub-command's handler and runs no
handler when the sub-command matches no registered command or there is no
sub-command. -/
def programParse (cmds : List CommandDesc) (subCommand : Option String) :
    List DispatchOut :=
  match subCommand with
  | none => []
  | some sc =>
    if (commandNames cmds).contains sc then [.runHandler sc] else []

/-- The exact hint printed for an unrecognized sub-command. -/
def notACommandMsg (sc : String) : String :=
  "\"" ++ sc ++
    "\" is not an exp command. See \"exp --help\" for the full list of commands."

/-- The dispatch tail of `runAsync`: `program.parse(process.argv)` followed
by the `process.argv[2]` check — print the hint for an unmatched
sub-command, or `program.help()` when none was given. -/
def runDispatch (cmds : List CommandDesc) (subCommand : Option String) :
    List DispatchOut :=
  programParse cmds subCommand ++
    match subCommand with
    | some sc =>
      if (commandNames cmds).contains sc then []
      else [.printMsg (notACommandMsg sc)]
    | none => [.showHelp]

/-- C8: a sub-command matching no registered name or alias produces exactly
the hint message and runs no handler; no sub-command at all produces
exactly the top-level help, which is not a failure path. -/
theorem dispatch_unmatched_and_help (cmds : List CommandDesc) (sc : String) :
    ((commandNames cmds).contains sc = false →
      runDispatch cmds (some sc) = [.printMsg (notACommandMsg sc)] ∧
      (∀ n, DispatchOut.runHandler n ∉ runDispatch cmds (some sc))) ∧
    runDispatch cmds none = [.showHelp] := by
  constructor
  · intro hmem
    have hmem' : sc ∉ commandNames cmds := by simpa using hmem
    constructor
    · simp [runDispatch, programParse, hmem']
    · intro n
      simp [runDispatch, programParse, hmem']
  · simp [runDispatch, programParse]

/-- Concrete instantiation of `dispatch_unmatched_and_help`: the registered
`login`/`signin` and `publish`/`p` commands, sub-command `foo`. -/
theorem dispatch_unmatched_and_help_witness :
    runDispatch
        [⟨"login", some "signin"⟩, ⟨"publish", some "p"⟩] (some "foo") =
      [.printMsg (notACommandMsg "foo")] ∧
    runDispatch [⟨"login", some "signin"⟩, ⟨"publish", some "p"⟩] none =
      [.showHelp] :=
  ⟨((dispatch_unmatched_and_help
      [⟨"login", some "signin"⟩, ⟨"publish", some "p"⟩] "foo").1
        (by decide)).1,
   (dispatch_unmatched_and_help
      [⟨"login", some "signin"⟩, ⟨"publish", some "p"⟩] "foo").2⟩

/-! ## Command builders: the login and publish commands

The commander `Command` chain as used by `src/commands/login.js` and by the
publish command module, together with the two option groups
`Command.prototype.allowOffline` and `Command.prototype.allowNonInteractive`
added in `exp.js`. -/

/-- The option-relevant state of a commander `Command` under construction. -/
structure CommandDef where
  cmdSpec : String
  aliasName : Option String
  descr : String
  options : List (String × String)
deriving Repr, DecidableEq

def newCommand (spec : String) : CommandDef :=
  { cmdSpec := spec, aliasName := none, descr := "", options := [] }

def CommandDef.alias (c : CommandDef) (a : String) : CommandDef :=
  { c with aliasName := some a }

def CommandDef.description (c : CommandDef) (d : String) : CommandDef :=
  { c with descr := d }

def CommandDef.option (c : CommandDef) (flags descr : String) : CommandDef :=
  { c with options := c.options ++ [(flags, descr)] }

/-- `Command.prototype.allowOffline` from `exp.js`. -/
def CommandDef.allowOffline (c : CommandDef) : CommandDef :=
  c.option "--offline" "Allows this command to run while offline"

/-- `Command.prototype.allowNonInteractive` from `exp.js`. -/
def CommandDef.allowNonInteractive (c : CommandDef) : CommandDef :=
  c.option "--non-interactive"
    "Fails if an interactive prompt would be required to continue."

/-- The command built by `src/commands/login.js`. -/
def loginCommand : CommandDef :=
  (newCommand "login").alias "signin"
    |>.description "Login to Expo"
    |>.option "-u, --username [string]" "Username"
    |>.option "-p, --password [string]" "Password"
    |>.option "-t, --token [string]" "Token"
    |>.option "--github" "Login with Github"
    |>.allowNonInteractive

/-- The command built by the publish command module. -/
def publishCommand : CommandDef :=
  (newCommand "publish [project-dir]").alias "p"
    |>.description "Publishes your project to exp.host"
    |>.option "-q, --quiet"
      "Suppress verbose output from the React Native packager."
    |>.option "-s, --send-to [dest]"
      "A phone number or e-mail address to send a link to"
    |>.allowNonInteractive

/-- A command accepts a flag when one of its declared options is exactly
that flag string. -/
def acceptsFlag (c : CommandDef) (flag : String) : Bool :=
  c.options.any fun o => decide (o.1 = flag)

/-- `startsWithChars needle hay`: `needle` is an initial segment of `hay`. -/
def startsWithChars : List Char → List Char → Bool
  | [], _ => true
  | _ :: _, [] => false
  | a :: l, b :: m => a == b && startsWithChars l m

/-- `hasSubChars needle hay`: `needle` occurs contiguously somewhere in
`hay`. -/
def hasSubChars (needle : List Char) : List Char → Bool
  | [] => startsWithChars needle []
  | b :: m => startsWithChars needle (b :: m) || hasSubChars needle m

/-- A command's option list mentions a flag when the flag occurs as a
substring of some declared flags string. -/
def mentionsFlag (c : CommandDef) (flag : String) : Bool :=
  c.options.any fun o => hasSubChars flag.data o.1.data

/-- C9 counterexample: neither the login command nor the publish command
declares the `--offline` flag (their option lists never even mention it),
so it is false that every registered command accepts both cross-cutting
flags. -/
theorem offline_flag_not_universal_cex :
    mentionsFlag loginCommand "--offline" = false ∧
    mentionsFlag publishCommand "--offline" = false ∧
    acceptsFlag loginCommand "--non-interactive" = true := by
  decide

/-- C9 (amended): the login and publish commands each accept the
`--non-interactive` flag, but neither declares `--offline`; the
`allowOffline` option group exists and would add exactly that flag, but
these commands do not apply it. -/
theorem cross_cutting_flags_amended :
    acceptsFlag loginCommand "--non-interactive" = true ∧
    acceptsFlag publishCommand "--non-interactive" = true ∧
    mentionsFlag loginCommand "--offline" = false ∧
    mentionsFlag publishCommand "--offline" = false ∧
    ∀ c : CommandDef, acceptsFlag c.allowOffline "--offline" = true := by
  refine ⟨by decide, by decide, by decide, by decide, fun c => ?_⟩
  simp [acceptsFlag, CommandDef.allowOffline, CommandDef.option]

/-! ## The publish command's `action`

`action(projectDir, options)` queries `Project.currentStatus(projectDir)`,
starts a dev server of its own (and installs exit hooks) only when none is
running, publishes, optionally sends the URL, and stops the server exactly
when it started one itself.  The embedding records the collaborator calls
of the success path in order; `recipient` is the result of
`sendTo.getRecipient(options.sendTo)` and `resultUrl` the published URL
returned by `Project.publishAsync`. -/

/-- Collaborator calls made by the publish action. -/
inductive PubEvent
  | queryStatus (dir : String)
  | installExitHooks (dir : String)
  | startAsync (dir : String)
  | getRecipient
  | spinnerStart
  | publishAsync (dir : String)
  | spinnerStop
  | sendUrl (url recipient : String)
  | stopAsync (dir : String)
deriving Repr, DecidableEq

/-- The options read by the publish action. -/
structure PublishOptions where
  sendTo : Option String
  quiet : Bool
deriving Repr, DecidableEq

/-- The success path of the publish command's `action`. -/
def publishAction (projectDir status : String) (opts : PublishOptions)
    (recipient : Option String) (resultUrl : String) : List PubEvent :=
  [PubEvent.queryStatus projectDir] ++
    (if status = "running" then []
     else [PubEvent.installExitHooks projectDir,
       PubEvent.startAsync projectDir]) ++
    [PubEvent.getRecipient] ++
    (if opts.quiet then [PubEvent.spinnerStart] else []) ++
    [PubEvent.publishAsync projectDir] ++
    (if opts.quiet then [PubEvent.spinnerStop] else []) ++
    (match recipient with
     | some r => [PubEvent.sendUrl resultUrl r]
     | none => []) ++
    (if status = "running" then [] else [PubEvent.stopAsync projectDir])

/-- Selects the dev-server lifecycle calls plus the publish call. -/
def PubEvent.isLifecycle : PubEvent → Bool
  | .startAsync _ => true
  | .publishAsync _ => true
  | .stopAsync _ => true
  | _ => false

/-- C10: on the success path the publish action restores the dev server to
the state it found: with an initially running server the only lifecycle
call is the publish itself (no `startAsync`, no `stopAsync`); otherwise it
starts the server, publishes and stops it — on the same project directory
and in that order — so `stopAsync` is called exactly when the action
started the server itself. -/
theorem publish_restores_server_state (projectDir status : String)
    (opts : PublishOptions) (recipient : Option String) (resultUrl : String) :
    (status = "running" →
      (publishAction projectDir status opts recipient resultUrl).filter
          PubEvent.isLifecycle =
        [.publishAsync projectDir]) ∧
    (status ≠ "running" →
      (publishAction projectDir status opts recipient resultUrl).filter
          PubEvent.isLifecycle =
        [.startAsync projectDir, .publishAsync projectDir,
          .stopAsync projectDir]) := by
  rcases opts with ⟨sendToArg, quiet⟩
  constructor
  · intro h
    cases quiet <;> cases recipient <;>
      simp [publishAction, h, PubEvent.isLifecycle]
  · intro h
    cases quiet <;> cases recipient <;>
      simp [publishAction, h, PubEvent.isLifecycle]

/-- Concrete instantiations of `publish_restores_server_state`: a running
server is left alone; a stopped one is started and stopped around the
publish. -/
theorem publish_restores_server_state_witness :
    (publishAction "/app" "running" ⟨none, false⟩ none
        "https://exp.host/u").filter PubEvent.isLifecycle =
      [.publishAsync "/app"] ∧
    (publishAction "/app" "exited" ⟨none, true⟩ (some "me")
        "https://exp.host/u").filter PubEvent.isLifecycle =
      [.startAsync "/app", .publishAsync "/app", .stopAsync "/app"] :=
  ⟨(publish_restores_server_state "/app" "running" ⟨none, false⟩ none
      "https://exp.host/u").1 rfl,
   (publish_restores_server_state "/app" "exited" ⟨none, true⟩ (some "me")
      "https://exp.host/u").2 (by decide)⟩

end Exp
